import Mathlib

/-
  Verification of the bpp-popgen permutation engine and DataSet/statistics
  layer against its natural-language specification.

  The embeddings below follow the C++ sources:
  - src/src/Bpp/PopGen/PolymorphismMultiGContainerTools.cpp (permutation engine)
  - src/Pop/DataSet.cpp (DataSet group/locality management)
  - src/Pop/SequenceStatistics.h (declarations and formulas for the
    diversity estimators; the implementation file is not in the source tree,
    so those statistics are modelled from the header documentation and spec)

  Machine integers (size_t, unsigned int) are modelled as Nat: all values
  involved (indices, group ids, counts) are small and never overflow in the
  modelled code paths.  Randomness (std::shuffle) is modelled as an injected
  shuffle oracle, following the spec, which treats the random generator as an
  injected uniform-shuffle primitive; theorems quantify over every oracle that
  returns a permutation of its input, and counterexamples instantiate the
  oracle with the identity permutation, which is one of the outcomes
  std::shuffle can produce.
-/

deriving instance DecidableEq for Except

namespace Bpp

/-! ### Data model for PolymorphismMultiGContainer

Modelled from the spec: the container layer (PolymorphismMultiGContainer,
MultilocusGenotype, MonolocusGenotype) is an external data provider
("holds records, each with a group id and a fixed-size vector of per-locus
genotypes (each genotype holds 0, 1, or 2 allele indices, or missing)").
A monolocus genotype is its list of allele indices (getAlleleIndex());
a missing slot of a MultilocusGenotype is `none` ("a null entry"). -/

/-- Modelled from the spec: one per-locus genotype slot of a
MultilocusGenotype; `none` is a missing slot, `some l` a genotype whose
getAlleleIndex() is `l`. -/
abbrev Geno := Option (List Nat)

/-- Modelled from the spec: one record of the collection: its group id and
its per-locus genotype vector. -/
structure Record where
  groupId : Nat
  genos : List Geno
deriving DecidableEq

/-- Default record used with List.getD. -/
def dRec : Record := ⟨0, []⟩

/-- Modelled from the spec: a PolymorphismMultiGContainer: the ordered
records, the group-id to name table, and the number of loci
(getNumberOfLoci()). -/
structure Container where
  records : List Record
  names : List (Nat × String)
  nbLoci : Nat
deriving DecidableEq

/-- Modelled from the spec: addMultilocusGenotype appends a copy of the
genotype with its group id ("Record: created when added to a collection"). -/
def Container.add (c : Container) (genos : List Geno) (gid : Nat) : Container :=
  ⟨c.records ++ [⟨gid, genos⟩], c.names, c.nbLoci⟩

/-- Modelled from the spec: getAllGroupsIds: the distinct group ids present
among the records. -/
def Container.getAllGroupsIds (c : Container) : List Nat :=
  (c.records.map (fun r => r.groupId)).dedup

/-- Modelled from the spec: group-name lookup on the container, "falling back
to the stringified id when no explicit name was set". -/
def Container.getGroupName (c : Container) (gid : Nat) : String :=
  match c.names.find? (fun p => decide (p.1 = gid)) with
  | some p => p.2
  | none => toString gid

/-- Modelled from the spec: setGroupName records a name for a group id. -/
def Container.setGroupName (c : Container) (gid : Nat) (name : String) : Container :=
  ⟨c.records, (gid, name) :: c.names.filter (fun p => decide (p.1 ≠ gid)), c.nbLoci⟩

/-- Well-formed collection: every record's genotype vector has length equal
to the collection's locus count (the spec's documented precondition). -/
abbrev Container.wf (c : Container) : Prop :=
  ∀ r ∈ c.records, r.genos.length = c.nbLoci

/-- Number of alleles held by a genotype slot (0 for a missing slot). -/
def genoLen : Geno → Nat
  | none => 0
  | some l => l.length

/-! ### PolymorphismMultiGContainerTools
(src/src/Bpp/PopGen/PolymorphismMultiGContainerTools.cpp)

Each function takes its shuffle oracle as an explicit argument standing for
std::shuffle with RandomTools::DEFAULT_GENERATOR; a per-locus oracle is
indexed by the locus of the call site. -/

/-- Concatenation of a list of lists (what pushing every element of several
vectors into one vector produces). -/
def flat {α : Type} : List (List α) → List α
  | [] => []
  | l :: ls => l ++ flat ls

/-- Index-aware map, used for the in-place per-locus loops
`for (i...) shuffle(v[i])`. -/
def mapIdxFrom {α β : Type} (f : Nat → α → β) : Nat → List α → List β
  | _, [] => []
  | i, a :: as => f i a :: mapIdxFrom f (i + 1) as

/-- The allele-index list a record exposes at locus j (empty for a missing
genotype, which contributes no allele). -/
def allelesAt (r : Record) (j : Nat) : List Nat :=
  (r.genos.getD j none).getD []

/-- All alleles at locus j over the records whose group id is in the selected
set, in record order (the per-locus pool gathered by permuteAlleles,
lines 209-222). -/
def columnAlleles (rs : List Record) (groups : List Nat) (j : Nat) : List Nat :=
  flat ((rs.filter (fun r => decide (r.groupId ∈ groups))).map (fun r => allelesAt r j))

/-- Copy of the "update group names" trailer shared by the permutation
functions: every group id of the source collection gets its source name set
on the destination. -/
def copyNames (src dst : Container) : Container :=
  src.getAllGroupsIds.foldl
    (fun c gid => c.setGroupName gid (src.getGroupName gid)) dst

/-- PolymorphismMultiGContainerTools::permuteMultiG (lines 51-66): copy the
container, collect every record's group id, shuffle the id list, and write
the shuffled ids back in record order. -/
def permuteMultiG (sh : List Nat → List Nat) (pmgc : Container) : Container :=
  let groups := pmgc.records.map (fun r => r.groupId)
  let groups := sh groups
  ⟨List.zipWith (fun r g => ⟨g, r.genos⟩) pmgc.records groups, pmgc.names, pmgc.nbLoci⟩

/-- Rebuild loop of permuteMonoG (lines 95-114): walks the records; a record
of a selected group is rebuilt from entry k of every shuffled per-locus list
(a null entry leaves the locus missing) and k is incremented; other records
are inserted as is.  The accumulator is the function's result pointer: every
arrow dereference of it maps under the Option. -/
def permuteMonoGBuild (cols : List (List Geno)) (groups : List Nat) :
    List Record → Nat → Option Container → Option Container
  | [], _, acc => acc
  | r :: rs, k, acc =>
    if r.groupId ∈ groups then
      permuteMonoGBuild cols groups rs (k + 1)
        (acc.map (fun c => c.add (cols.map (fun col => col.getD k none)) r.groupId))
    else
      permuteMonoGBuild cols groups rs k (acc.map (fun c => c.add r.genos r.groupId))

/-- PolymorphismMultiGContainerTools::permuteMonoG (lines 70-125).  Line 74
declares the result `unique_ptr<PolymorphismMultiGContainer> permutedPmgc;`
and, unlike every sibling function, never initializes it, so it holds null:
the value is modelled as `none`, and each subsequent `permutedPmgc->...` call
(addMultilocusGenotype on lines 106 and 112, setGroupName on line 121) is an
Option.map over it.  The gather (lines 79-88) clones the per-locus genotypes
of the selected records (a missing slot clones to a null entry) and each
per-locus list is shuffled (lines 90-93). -/
def permuteMonoG (sh : Nat → List Geno → List Geno) (pmgc : Container)
    (groups : List Nat) : Option Container :=
  let locNum := pmgc.nbLoci
  let monoGens : List (List Geno) :=
    (List.range locNum).map (fun j =>
      sh j ((pmgc.records.filter (fun r => decide (r.groupId ∈ groups))).map
        (fun r => r.genos.getD j none)))
  let permutedPmgc : Option Container := none
  let permutedPmgc := permuteMonoGBuild monoGens groups pmgc.records 0 permutedPmgc
  pmgc.getAllGroupsIds.foldl
    (fun acc gid => acc.map (fun c => c.setGroupName gid (pmgc.getGroupName gid)))
    permutedPmgc

/-- One step of the rebuild of permuteIntraGroupMonoG (lines 172-183): the
single MultilocusGenotype tmpMg is mutated in place: locus j is overwritten
when entry k of its list is non-null and otherwise keeps the value left from
the previous individual. -/
def setFromCols (cols : List (List Geno)) (k : Nat) (tmp : List Geno) : List Geno :=
  List.zipWith (fun col t =>
    match col.getD k none with
    | some x => some x
    | none => t) cols tmp

/-- Rebuild loop of permuteIntraGroupMonoG over k = 0..nbIndInGroup-1
(lines 174-183), returning the genotype vectors added for the group; tmpMg
is created once before the loop and carried through it. -/
def rebuildIntraMono (cols : List (List Geno)) (k : Nat) (count : Nat)
    (tmp : List Geno) : List (List Geno) :=
  match count with
  | 0 => []
  | Nat.succ n =>
    let tmp2 := setFromCols cols k tmp
    tmp2 :: rebuildIntraMono cols (k + 1) n tmp2

/-- Body of the `for g in groups` loop of permuteIntraGroupMonoG
(lines 138-185).  The state is the per-locus vector monoGens, which is
declared outside the loop (line 135) and never cleared between groups, and
the records added so far.  Each pass over the records appends group g's
genotypes to monoGens and re-inserts every record of an unselected group as
is; when the group is non-empty, monoGens is shuffled in place and the first
nbIndInGroup entries of each (accumulated) per-locus list rebuild the
group's records. -/
def intraMonoStep (sh : Nat → List Geno → List Geno) (pmgc : Container)
    (groups : List Nat) (st : List (List Geno) × List Record) (g : Nat) :
    List (List Geno) × List Record :=
  let monoGens := st.1
  let out := st.2
  let selected := pmgc.records.filter (fun r => decide (r.groupId = g))
  let unsel := pmgc.records.filter (fun r => decide (¬ r.groupId ∈ groups))
  let nb := selected.length
  let monoGens := mapIdxFrom
    (fun j col => col ++ selected.map (fun r => r.genos.getD j none)) 0 monoGens
  let out := out ++ unsel
  if nb > 0 then
    let monoGens := mapIdxFrom (fun j col => sh j col) 0 monoGens
    let newGenos := rebuildIntraMono monoGens 0 nb (List.replicate pmgc.nbLoci none)
    (monoGens, out ++ newGenos.map (fun gen => (⟨g, gen⟩ : Record)))
  else (monoGens, out)

/-- PolymorphismMultiGContainerTools::permuteIntraGroupMonoG
(lines 129-196): folds the per-group loop body over the selected group set
(std::set iteration, here the given list) and copies the group names. -/
def permuteIntraGroupMonoG (sh : Nat → List Geno → List Geno) (pmgc : Container)
    (groups : List Nat) : Container :=
  let st := groups.foldl (intraMonoStep sh pmgc groups)
    (List.replicate pmgc.nbLoci [], [])
  copyNames pmgc ⟨st.2, [], pmgc.nbLoci⟩

/-- Per-locus consumption step of the allele rebuilds (`alleles[j][k[j]++]`,
lines 239-242): a missing slot consumes nothing; a 1-allele genotype takes
one pooled allele, a 2-allele genotype takes two; any other size matches
neither `if` and leaves the locus unset.  Reading past the end of the pool
(undefined behavior in the C++) yields the default 0. -/
def consumeGeno (pool : List Nat) (k : Nat) : Geno → Geno × Nat
  | none => (none, k)
  | some l =>
    if l.length = 1 then (some [pool.getD k 0], k + 1)
    else if l.length = 2 then (some [pool.getD k 0, pool.getD (k + 1) 0], k + 2)
    else (none, k)

/-- One record rebuilt by permuteAlleles (lines 234-244): locus by locus,
with the per-locus pools and counters. -/
def buildGenos : List (List Nat) → List Nat → List Geno → List Geno × List Nat
  | p :: ps, k :: ks, g :: gs =>
    let hd := consumeGeno p k g
    let rest := buildGenos ps ks gs
    (hd.1 :: rest.1, hd.2 :: rest.2)
  | _, _, _ => ([], [])

/-- Rebuild loop of permuteAlleles (lines 229-252): records of a selected
group are rebuilt from the pools with the running counters, other records
are inserted as is. -/
def permuteAllelesBuild (pools : List (List Nat)) (groups : List Nat) :
    List Record → List Nat → List Record
  | [], _ => []
  | r :: rs, ks =>
    if r.groupId ∈ groups then
      let res := buildGenos pools ks r.genos
      ⟨r.groupId, res.1⟩ :: permuteAllelesBuild pools groups rs res.2
    else
      r :: permuteAllelesBuild pools groups rs ks

/-- PolymorphismMultiGContainerTools::permuteAlleles (lines 200-262): pool
all alleles of the selected records per locus (lines 209-222), shuffle each
pool (lines 224-227), rebuild the records with per-locus counters starting
at 0 (lines 229-252), and copy the group names. -/
def permuteAlleles (sh : Nat → List Nat → List Nat) (pmgc : Container)
    (groups : List Nat) : Container :=
  let locNum := pmgc.nbLoci
  let alleles := (List.range locNum).map
    (fun j => sh j (columnAlleles pmgc.records groups j))
  let recs := permuteAllelesBuild alleles groups pmgc.records
    (List.replicate locNum 0)
  copyNames pmgc ⟨recs, [], locNum⟩

/-- Per-locus step of the intra-group allele rebuild (lines 328-331), driven
by the recorded original sizes rather than by the input genotype. -/
def buildFromSizes : List (List Nat) → List Nat → List Nat → List Geno × List Nat
  | p :: ps, k :: ks, s :: ss =>
    let hd : Geno × Nat :=
      if s = 1 then (some [p.getD k 0], k + 1)
      else if s = 2 then (some [p.getD k 0, p.getD (k + 1) 0], k + 2)
      else (none, k)
    let rest := buildFromSizes ps ks ss
    (hd.1 :: rest.1, hd.2 :: rest.2)
  | _, _, _ => ([], [])

/-- Rebuild loop of permuteIntraGroupAlleles over ind = 0..nbIndInGroup-1
(lines 323-335); `nbAllelesForInds[j][ind]` is read with default 0 when out
of range (undefined behavior in the C++, reachable with missing data). -/
def rebuildIntraAllelesAux (pools : List (List Nat)) (sizesCols : List (List Nat))
    (ind : Nat) (count : Nat) (ks : List Nat) : List (List Geno) :=
  match count with
  | 0 => []
  | Nat.succ n =>
    let sizes := sizesCols.map (fun col => col.getD ind 0)
    let res := buildFromSizes pools ks sizes
    res.1 :: rebuildIntraAllelesAux pools sizesCols (ind + 1) n res.2

/-- Body of the `for g in groups` loop of permuteIntraGroupAlleles
(lines 275-337).  The per-locus pools `alleles` are declared outside the
loop (line 272) and never cleared between groups; nbAllelesForInds is fresh
per group; every record of an unselected group is re-inserted as is on each
pass. -/
def intraAllelesStep (sh : Nat → List Nat → List Nat) (pmgc : Container)
    (groups : List Nat) (st : List (List Nat) × List Record) (g : Nat) :
    List (List Nat) × List Record :=
  let pools := st.1
  let out := st.2
  let selected := pmgc.records.filter (fun r => decide (r.groupId = g))
  let unsel := pmgc.records.filter (fun r => decide (¬ r.groupId ∈ groups))
  let nb := selected.length
  let sizesCols := (List.range pmgc.nbLoci).map
    (fun j => selected.filterMap (fun r => (r.genos.getD j none).map List.length))
  let pools := mapIdxFrom
    (fun j pool => pool ++ flat (selected.map (fun r => allelesAt r j))) 0 pools
  let out := out ++ unsel
  if nb > 0 then
    let pools := mapIdxFrom (fun j pool => sh j pool) 0 pools
    let newGenos := rebuildIntraAllelesAux pools sizesCols 0 nb
      (List.replicate pmgc.nbLoci 0)
    (pools, out ++ newGenos.map (fun gen => (⟨g, gen⟩ : Record)))
  else (pools, out)

/-- PolymorphismMultiGContainerTools::permuteIntraGroupAlleles
(lines 266-349). -/
def permuteIntraGroupAlleles (sh : Nat → List Nat → List Nat) (pmgc : Container)
    (groups : List Nat) : Container :=
  let st := groups.foldl (intraAllelesStep sh pmgc groups)
    (List.replicate pmgc.nbLoci [], [])
  copyNames pmgc ⟨st.2, [], pmgc.nbLoci⟩

/-- PolymorphismMultiGContainerTools::extractGroups (lines 353-384): for
each selected group in set order, append the records of that group; then set
the names of the groups present in the extracted collection. -/
def extractGroups (pmgc : Container) (groups : List Nat) : Container :=
  let recs := groups.foldl
    (fun acc g => acc ++ pmgc.records.filter (fun r => decide (r.groupId = g))) []
  let sub : Container := ⟨recs, [], pmgc.nbLoci⟩
  sub.getAllGroupsIds.foldl
    (fun c gid => c.setGroupName gid (pmgc.getGroupName gid)) sub

/-! ### DataSet (src/Pop/DataSet.cpp) -/

/-- A group of a DataSet: its integer id and its (possibly empty) name. -/
structure GroupD where
  groupId : Nat
  groupName : String
deriving DecidableEq

/-- DataSet state (the fields touched by the copy constructor, operator= and
the group lookups): the AnalyzedLoci / AnalyzedSequences pointers are
modelled by their presence, localities and groups by lists. -/
structure DataSet where
  analyzedLoci : Option String
  analyzedSequences : Option String
  localities : List String
  groups : List GroupD
deriving DecidableEq

/-- DataSet copy constructor (DataSet.cpp lines 51-62): starts from empty
fields, then copies each present field of the source. -/
def DataSet.copyCtor (ds : DataSet) : DataSet :=
  ⟨ds.analyzedLoci, ds.analyzedSequences, ds.localities, ds.groups⟩

/-- DataSet::operator= (DataSet.cpp lines 66-78): each present pointer of the
source is copied over, and the source's localities and groups are pushed back
onto the target's existing vectors, which are never cleared. -/
def DataSet.assign (d ds : DataSet) : DataSet :=
  ⟨if ds.analyzedLoci.isSome then ds.analyzedLoci else d.analyzedLoci,
   if ds.analyzedSequences.isSome then ds.analyzedSequences else d.analyzedSequences,
   d.localities ++ ds.localities,
   d.groups ++ ds.groups⟩

/-- DataSet::getGroupById (DataSet.cpp lines 194-200): linear scan returning
the first group with the given id, or NULL (`none`). -/
def DataSet.getGroupById (ds : DataSet) (gid : Nat) : Option GroupD :=
  ds.groups.find? (fun g => decide (g.groupId = gid))

/-- Errors a DataSet name lookup can hit: dereferencing a NULL group pointer
(undefined behavior in the C++), or the declared GroupNotFoundException. -/
inductive DsError where
  | nullDeref
  | groupNotFound
deriving DecidableEq

/-- DataSet::getGroupName (DataSet.cpp lines 204-211):
`name = this->getGroupById(group_id)->getGroupName();` dereferences the
result of getGroupById unconditionally, so an unknown id hits the NULL
dereference; for a found group the non-empty name is returned, otherwise the
stringified id.  The `throw GroupNotFoundException` on line 210 comes after
both returns and is unreachable. -/
def DataSet.getGroupName (ds : DataSet) (gid : Nat) : Except DsError String :=
  match ds.getGroupById gid with
  | none => Except.error DsError.nullDeref
  | some g =>
    if g.groupName ≠ "" then Except.ok g.groupName
    else Except.ok (toString gid)

/-! ### Sequence statistics (src/Pop/SequenceStatistics.h)

The implementation file of SequenceStatistics is not in the source tree, only
the header with its documentation; these definitions are modelled from that
documentation and the spec. -/

/-- Modelled from the spec: a PolymorphismSequenceContainer: aligned
equal-length sequences; a symbol is `none` for a gap/unresolved state and
`some s` for a resolved symbol. -/
structure Psc where
  seqs : List (List (Option Nat))
deriving DecidableEq

/-- Number of sequences of the alignment. -/
def Psc.nbSeq (psc : Psc) : Nat := psc.seqs.length

/-- The sites (columns) of the alignment. -/
def Psc.sites (psc : Psc) : List (List (Option Nat)) := psc.seqs.transpose

/-- Modelled from the spec: a site is segregating when it shows at least two
distinct resolved symbols; with gapflag set, sites containing gaps are
excluded, otherwise a gap counts as a distinct state ("gaps are considered
as mutations"). -/
def siteSegregating (gapflag : Bool) (site : List (Option Nat)) : Bool :=
  if gapflag then
    site.all (fun s => s.isSome) && decide (2 ≤ (site.filterMap id).dedup.length)
  else
    decide (2 ≤ site.dedup.length)

/-- Modelled from the spec: SequenceStatistics::polymorphicSiteNumber: the
number of segregating sites S. -/
def polymorphicSiteNumber (psc : Psc) (gapflag : Bool) : Nat :=
  (psc.sites.filter (siteSegregating gapflag)).length

/-- Modelled from the spec: the a1 entry of getUsefullValues_(n):
the sum of 1/i for i from 1 to n-1. -/
def a1 (n : Nat) : ℚ :=
  (Finset.range (n - 1)).sum (fun i => 1 / ((i : ℚ) + 1))

/-- Modelled from the spec: SequenceStatistics::watterson75: Theta_W = S / a1
(header lines 190-202). -/
def watterson75 (psc : Psc) (gapflag : Bool) : ℚ :=
  (polymorphicSiteNumber psc gapflag : ℚ) / a1 psc.nbSeq

/-- Synthetic alignment of 4 sequences and 5 sites with exactly two
segregating sites and no gaps (spec section 8). -/
def exAln : Psc :=
  ⟨[[some 0, some 0, some 0, some 0, some 0],
    [some 0, some 1, some 0, some 0, some 0],
    [some 0, some 0, some 1, some 0, some 0],
    [some 0, some 0, some 1, some 0, some 0]]⟩

/-! ### Helper lemmas -/

lemma permuteMonoGBuild_none (cols : List (List Geno)) (groups : List Nat) :
    ∀ (rs : List Record) (k : Nat), permuteMonoGBuild cols groups rs k none = none := by
  intro rs
  induction rs with
  | nil => intro k; rfl
  | cons r rs ih =>
    intro k
    unfold permuteMonoGBuild
    by_cases h : r.groupId ∈ groups
    · simp only [if_pos h, Option.map_none', ih]
    · simp only [if_neg h, Option.map_none', ih]

lemma foldSetNameOpt_none (f : Nat → String) : ∀ (ids : List Nat),
    ids.foldl (fun acc gid => acc.map (fun c => Container.setGroupName c gid (f gid)))
      none = none := by
  intro ids
  induction ids with
  | nil => rfl
  | cons i is ih => simpa using ih

lemma records_foldl_preserved (g : Container → Nat → Container)
    (hg : ∀ c gid, (g c gid).records = c.records) :
    ∀ (ids : List Nat) (dst : Container), (ids.foldl g dst).records = dst.records := by
  intro ids
  induction ids with
  | nil => intro dst; rfl
  | cons i is ih => intro dst; rw [List.foldl_cons, ih, hg]

lemma foldl_append_eq {α : Type} (h : Nat → List α) :
    ∀ (gs : List Nat) (acc : List α),
      gs.foldl (fun a g => a ++ h g) acc = acc ++ flat (gs.map h) := by
  intro gs
  induction gs with
  | nil => intro acc; simp [flat]
  | cons g gs ih =>
    intro acc
    rw [List.foldl_cons, ih, List.map_cons]
    simp [flat, List.append_assoc]

lemma mem_flat {α : Type} (a : α) : ∀ (L : List (List α)),
    (a ∈ flat L) ↔ ∃ l ∈ L, a ∈ l := by
  intro L
  induction L with
  | nil => simp [flat]
  | cons l ls ih => simp [flat, ih, List.mem_append]

lemma length_flat {α : Type} : ∀ (L : List (List α)),
    (flat L).length = (L.map List.length).sum := by
  intro L
  induction L with
  | nil => rfl
  | cons l ls ih => simp [flat, ih]

lemma map_groupId_zipWith : ∀ (rs : List Record) (gs : List Nat),
    gs.length = rs.length →
    (List.zipWith (fun r g => (⟨g, r.genos⟩ : Record)) rs gs).map
      (fun r => r.groupId) = gs := by
  intro rs
  induction rs with
  | nil =>
    intro gs h
    cases gs with
    | nil => rfl
    | cons g gs => simp at h
  | cons r rs ih =>
    intro gs h
    cases gs with
    | nil => simp at h
    | cons g gs =>
      simp only [List.zipWith_cons_cons, List.map_cons]
      rw [ih gs (by simpa using h)]

/-! ### Theorems for the permutation-engine claims -/

/-- Claim C1: the permutation operations are claimed never to raise on
well-formed input, but permuteMonoG declares its result pointer on line 74
without initializing it and then dereferences it on lines 106, 112 and 121:
no call can return a collection.  The embedding models the null pointer as
`none` and every dereference as an Option.map, so the function's value is
`none` for every input, in particular for every well-formed non-empty one. -/
theorem permuteMonoG_nullResult (sh : Nat → List Geno → List Geno)
    (pmgc : Container) (groups : List Nat) :
    permuteMonoG sh pmgc groups = none := by
  simp only [permuteMonoG]
  rw [permuteMonoGBuild_none]
  exact foldSetNameOpt_none (fun gid => pmgc.getGroupName gid) pmgc.getAllGroupsIds

/-- Collection used to exhibit the intra-group permutation defects: one
record in group 1 carrying allele 10, one in group 2 carrying allele 20, one
in the unselected group 0 carrying allele 30. -/
def exC2 : Container :=
  ⟨[⟨1, [some [10]]⟩, ⟨2, [some [20]]⟩, ⟨0, [some [30]]⟩], [], 1⟩

/-- Claim C2: evaluated with the identity shuffle (one possible outcome of
std::shuffle) on exC2 with selected groups 1 and 2, both intra-group
operations (genotype and allele variant) violate the claim: the unselected
group-0 record appears twice in the output (it is re-inserted once per
selected group), and the output group-2 record carries genotype [10], which
exists in no group-2 input record: it is the group-1 genotype left in the
pooled vector that is never cleared between groups. -/
theorem permuteIntraGroup_crossesGroups_and_duplicates :
    ((permuteIntraGroupMonoG (fun _ l => l) exC2 [1, 2]).records.filter
        (fun r => decide (r.groupId = 0))).length = 2 ∧
    (permuteIntraGroupMonoG (fun _ l => l) exC2 [1, 2]).records.filter
        (fun r => decide (r.groupId = 2)) = [⟨2, [some [10]]⟩] ∧
    exC2.records.filter
        (fun r => decide (r.groupId = 2 ∧ r.genos = [some [10]])) = [] ∧
    exC2.records.filter
        (fun r => decide (r.groupId = 1 ∧ r.genos = [some [10]])) = [⟨1, [some [10]]⟩] ∧
    ((permuteIntraGroupAlleles (fun _ l => l) exC2 [1, 2]).records.filter
        (fun r => decide (r.groupId = 0))).length = 2 ∧
    (permuteIntraGroupAlleles (fun _ l => l) exC2 [1, 2]).records.filter
        (fun r => decide (r.groupId = 2)) = [⟨2, [some [10]]⟩] := by
  decide

/-- Collection used as the label-permutation witness. -/
def exC3 : Container := ⟨[⟨1, [some [1]]⟩, ⟨2, [some [2]]⟩, ⟨2, [some [3]]⟩], [], 1⟩

/-- Claim C3: label permutation keeps the record count and permutes the
group-id assignment, so the multiset of group ids over the records is
exactly preserved, for every shuffle outcome that is a permutation of its
input. -/
theorem permuteMultiG_preserves_groupIdMultiset (sh : List Nat → List Nat)
    (pmgc : Container) (hsh : ∀ l : List Nat, (sh l).Perm l) :
    (permuteMultiG sh pmgc).records.length = pmgc.records.length ∧
    ((permuteMultiG sh pmgc).records.map (fun r => r.groupId)).Perm
      (pmgc.records.map (fun r => r.groupId)) := by
  have hlen : (sh (pmgc.records.map (fun r => r.groupId))).length
      = pmgc.records.length := by
    simpa using (hsh (pmgc.records.map (fun r => r.groupId))).length_eq
  constructor
  · simp [permuteMultiG, List.length_zipWith, hlen]
  · have h1 := map_groupId_zipWith pmgc.records
      (sh (pmgc.records.map (fun r => r.groupId))) hlen
    simp only [permuteMultiG]
    rw [h1]
    exact hsh _

/-- Witness for claim C3 on a concrete collection, with the identity
permutation as the shuffle outcome. -/
theorem permuteMultiG_preserves_groupIdMultiset_witness :
    (permuteMultiG (fun l => l) exC3).records.length = exC3.records.length ∧
    ((permuteMultiG (fun l => l) exC3).records.map (fun r => r.groupId)).Perm
      (exC3.records.map (fun r => r.groupId)) :=
  permuteMultiG_preserves_groupIdMultiset (fun l => l) exC3 (fun l => List.Perm.refl l)

/-- Collection used as the extraction witness. -/
def exC5 : Container :=
  ⟨[⟨1, [some [1]]⟩, ⟨2, [some [2]]⟩, ⟨3, [some [3]]⟩, ⟨1, [some [4]]⟩], [], 1⟩

/-- Claim C5: extractGroups keeps exactly the records whose group id is in
the selected set, each taken verbatim from the input, and its record count
is the sum over the selected groups of the input group sizes. -/
theorem extractGroups_subset_and_count (pmgc : Container) (groups : List Nat) :
    (∀ r ∈ (extractGroups pmgc groups).records, r.groupId ∈ groups ∧ r ∈ pmgc.records) ∧
    (extractGroups pmgc groups).records.length =
      (groups.map (fun g =>
        (pmgc.records.filter (fun r => decide (r.groupId = g))).length)).sum := by
  have hrec : (extractGroups pmgc groups).records
      = flat (groups.map (fun g =>
          pmgc.records.filter (fun r => decide (r.groupId = g)))) := by
    simp only [extractGroups]
    rw [records_foldl_preserved
      (fun c gid => Container.setGroupName c gid (pmgc.getGroupName gid))
      (fun c gid => rfl)]
    rw [foldl_append_eq (fun g => pmgc.records.filter (fun r => decide (r.groupId = g)))
      groups []]
    rfl
  constructor
  · intro r hr
    rw [hrec] at hr
    rcases (mem_flat r _).1 hr with ⟨l, hl, hrl⟩
    rcases List.mem_map.1 hl with ⟨g, hg, rfl⟩
    have hf := List.mem_filter.1 hrl
    refine ⟨?_, hf.1⟩
    have hgid : r.groupId = g := of_decide_eq_true hf.2
    rw [hgid]
    exact hg
  · rw [hrec, length_flat, List.map_map]
    rfl

/-- Witness for claim C5 on a concrete collection with two selected groups,
one of them present twice in the records. -/
theorem extractGroups_subset_and_count_witness :
    (∀ r ∈ (extractGroups exC5 [1, 3]).records, r.groupId ∈ [1, 3] ∧ r ∈ exC5.records) ∧
    (extractGroups exC5 [1, 3]).records.length =
      (([1, 3] : List Nat).map (fun g =>
        (exC5.records.filter (fun r => decide (r.groupId = g))).length)).sum :=
  extractGroups_subset_and_count exC5 [1, 3]

/-! ### Lemmas for the allele-permutation claims (C4, C10)

The per-locus counters of the rebuild loop make each locus independent:
projecting the rebuild onto one locus gives a scan (consumeColumn) that, for
genotypes of sizes in 0/1/2 and a sufficient pool, consumes exactly one pool
segment per genotype. -/

/-- Single-locus projection of the rebuild loop: the alleles written at one
locus over a run of selected genotypes, with the running counter. -/
def consumeColumn (pool : List Nat) : Nat → List Geno → List Nat
  | _, [] => []
  | k, g :: gs =>
    ((consumeGeno pool k g).1.getD []) ++ consumeColumn pool (consumeGeno pool k g).2 gs

lemma getD_map_range {α : Type} (f : Nat → α) (n j : Nat) (d : α) (h : j < n) :
    ((List.range n).map f).getD j d = f j := by
  have hlen : j < ((List.range n).map f).length := by simpa using h
  rw [List.getD_eq_getElem _ _ hlen]
  simp

lemma drop_getD_cons : ∀ (l : List Nat) (k : Nat), k < l.length →
    l.drop k = l.getD k 0 :: l.drop (k + 1) := by
  intro l
  induction l with
  | nil => intro k h; simp at h
  | cons a l ih =>
    intro k h
    cases k with
    | zero => simp
    | succ k =>
      simp only [List.drop_succ_cons, List.getD_cons_succ]
      exact ih k (by simpa using h)

lemma buildGenos_fst_length : ∀ (ps : List (List Nat)) (ks : List Nat) (gs : List Geno),
    (buildGenos ps ks gs).1.length = min (min ps.length ks.length) gs.length := by
  intro ps
  induction ps with
  | nil => intro ks gs; simp [buildGenos]
  | cons p ps ih =>
    intro ks gs
    cases ks with
    | nil => simp [buildGenos]
    | cons k ks =>
      cases gs with
      | nil => simp [buildGenos]
      | cons g gs =>
        simp only [buildGenos, List.length_cons, ih]
        omega

lemma buildGenos_snd_length : ∀ (ps : List (List Nat)) (ks : List Nat) (gs : List Geno),
    (buildGenos ps ks gs).2.length = min (min ps.length ks.length) gs.length := by
  intro ps
  induction ps with
  | nil => intro ks gs; simp [buildGenos]
  | cons p ps ih =>
    intro ks gs
    cases ks with
    | nil => simp [buildGenos]
    | cons k ks =>
      cases gs with
      | nil => simp [buildGenos]
      | cons g gs =>
        simp only [buildGenos, List.length_cons, ih]
        omega

lemma buildGenos_fst_getD : ∀ (ps : List (List Nat)) (ks : List Nat) (gs : List Geno)
    (j : Nat), j < ps.length → j < ks.length → j < gs.length →
    (buildGenos ps ks gs).1.getD j none
      = (consumeGeno (ps.getD j []) (ks.getD j 0) (gs.getD j none)).1 := by
  intro ps
  induction ps with
  | nil => intro ks gs j h1 h2 h3; simp at h1
  | cons p ps ih =>
    intro ks gs j h1 h2 h3
    cases ks with
    | nil => simp at h2
    | cons k ks =>
      cases gs with
      | nil => simp at h3
      | cons g gs =>
        cases j with
        | zero => simp [buildGenos]
        | succ j =>
          simp only [buildGenos, List.getD_cons_succ]
          exact ih ks gs j (by simpa using h1) (by simpa using h2) (by simpa using h3)

lemma buildGenos_snd_getD : ∀ (ps : List (List Nat)) (ks : List Nat) (gs : List Geno)
    (j : Nat), j < ps.length → j < ks.length → j < gs.length →
    (buildGenos ps ks gs).2.getD j 0
      = (consumeGeno (ps.getD j []) (ks.getD j 0) (gs.getD j none)).2 := by
  intro ps
  induction ps with
  | nil => intro ks gs j h1 h2 h3; simp at h1
  | cons p ps ih =>
    intro ks gs j h1 h2 h3
    cases ks with
    | nil => simp at h2
    | cons k ks =>
      cases gs with
      | nil => simp at h3
      | cons g gs =>
        cases j with
        | zero => simp [buildGenos]
        | succ j =>
          simp only [buildGenos, List.getD_cons_succ]
          exact ih ks gs j (by simpa using h1) (by simpa using h2) (by simpa using h3)

lemma permuteAllelesBuild_length (pools : List (List Nat)) (groups : List Nat) :
    ∀ (rs : List Record) (ks : List Nat),
      (permuteAllelesBuild pools groups rs ks).length = rs.length := by
  intro rs
  induction rs with
  | nil => intro ks; rfl
  | cons r rs ih =>
    intro ks
    simp only [permuteAllelesBuild]
    by_cases h : r.groupId ∈ groups
    · simp [h, ih]
    · simp [h, ih]

lemma permuteAllelesBuild_getD_groupId (pools : List (List Nat)) (groups : List Nat) :
    ∀ (rs : List Record) (ks : List Nat) (i : Nat),
      ((permuteAllelesBuild pools groups rs ks).getD i dRec).groupId
        = (rs.getD i dRec).groupId := by
  intro rs
  induction rs with
  | nil => intro ks i; rfl
  | cons r rs ih =>
    intro ks i
    simp only [permuteAllelesBuild]
    by_cases h : r.groupId ∈ groups
    · cases i with
      | zero => simp [h]
      | succ i =>
        simp only [if_pos h, List.getD_cons_succ]
        exact ih _ i
    · cases i with
      | zero => simp [h]
      | succ i =>
        simp only [if_neg h, List.getD_cons_succ]
        exact ih ks i

lemma permuteAllelesBuild_getD_unsel (pools : List (List Nat)) (groups : List Nat) :
    ∀ (rs : List Record) (ks : List Nat) (i : Nat),
      ¬ (rs.getD i dRec).groupId ∈ groups →
      (permuteAllelesBuild pools groups rs ks).getD i dRec = rs.getD i dRec := by
  intro rs
  induction rs with
  | nil => intro ks i h; rfl
  | cons r rs ih =>
    intro ks i h
    simp only [permuteAllelesBuild]
    by_cases hr : r.groupId ∈ groups
    · cases i with
      | zero => exact absurd hr (by simpa using h)
      | succ i =>
        simp only [if_pos hr, List.getD_cons_succ]
        exact ih _ i (by simpa using h)
    · cases i with
      | zero => simp [hr]
      | succ i =>
        simp only [if_neg hr, List.getD_cons_succ]
        exact ih ks i (by simpa using h)

lemma permuteAllelesBuild_getD_sel (pools : List (List Nat)) (groups : List Nat) :
    ∀ (rs : List Record) (ks : List Nat) (i : Nat), ks.length = pools.length →
      (∀ r ∈ rs, r.genos.length = pools.length) →
      i < rs.length → (rs.getD i dRec).groupId ∈ groups →
      ∃ ks2 : List Nat, ks2.length = pools.length ∧
        (permuteAllelesBuild pools groups rs ks).getD i dRec
          = ⟨(rs.getD i dRec).groupId, (buildGenos pools ks2 ((rs.getD i dRec).genos)).1⟩ := by
  intro rs
  induction rs with
  | nil => intro ks i h1 h2 h3 h4; simp at h3
  | cons r rs ih =>
    intro ks i hks hwf hi hsel
    by_cases h : r.groupId ∈ groups
    · cases i with
      | zero =>
        refine ⟨ks, hks, ?_⟩
        simp [permuteAllelesBuild, h]
      | succ i =>
        have hks2 : ((buildGenos pools ks r.genos).2).length = pools.length := by
          rw [buildGenos_snd_length, hks, hwf r (List.mem_cons_self r rs)]
          omega
        rcases ih (buildGenos pools ks r.genos).2 i hks2
            (fun x hx => hwf x (List.mem_cons_of_mem _ hx))
            (by simpa using hi) (by simpa using hsel) with ⟨ks2, hl, he⟩
        refine ⟨ks2, hl, ?_⟩
        simp only [permuteAllelesBuild, if_pos h, List.getD_cons_succ]
        exact he
    · cases i with
      | zero => exact absurd (by simpa using hsel) h
      | succ i =>
        rcases ih ks i hks (fun x hx => hwf x (List.mem_cons_of_mem _ hx))
            (by simpa using hi) (by simpa using hsel) with ⟨ks2, hl, he⟩
        refine ⟨ks2, hl, ?_⟩
        simp only [permuteAllelesBuild, if_neg h, List.getD_cons_succ]
        exact he

lemma columnAlleles_cons (r : Record) (rs : List Record) (groups : List Nat) (j : Nat) :
    columnAlleles (r :: rs) groups j
      = (if r.groupId ∈ groups then allelesAt r j else []) ++ columnAlleles rs groups j := by
  by_cases h : r.groupId ∈ groups
  · simp [columnAlleles, List.filter_cons, h, flat]
  · simp [columnAlleles, List.filter_cons, h]

lemma length_allelesAt (r : Record) (j : Nat) :
    (allelesAt r j).length = genoLen (r.genos.getD j none) := by
  unfold allelesAt genoLen
  cases r.genos.getD j none <;> simp

lemma flat_append {α : Type} : ∀ (L1 L2 : List (List α)),
    flat (L1 ++ L2) = flat L1 ++ flat L2 := by
  intro L1 L2
  induction L1 with
  | nil => rfl
  | cons l L1 ih => simp [flat, ih, List.append_assoc]

lemma flat_eq_nil {α : Type} : ∀ (L : List (List α)), (∀ l ∈ L, l = []) → flat L = [] := by
  intro L
  induction L with
  | nil => intro h; rfl
  | cons l ls ih =>
    intro h
    have h1 : l = [] := h l (List.mem_cons_self l ls)
    simp [flat, h1, ih (fun x hx => h x (List.mem_cons_of_mem _ hx))]

lemma columnAlleles_eq_nil (rs : List Record) (groups : List Nat) (j : Nat)
    (h : ∀ r ∈ rs, r.genos.getD j none = none) :
    columnAlleles rs groups j = [] := by
  apply flat_eq_nil
  intro l hl
  rcases List.mem_map.1 hl with ⟨r, hr, rfl⟩
  have hrs : r ∈ rs := (List.mem_filter.1 hr).1
  unfold allelesAt
  rw [h r hrs]
  rfl

lemma length_columnAlleles (rs : List Record) (groups : List Nat) (j : Nat) :
    (columnAlleles rs groups j).length
      = (((rs.filter (fun r => decide (r.groupId ∈ groups))).map
          (fun r => r.genos.getD j none)).map genoLen).sum := by
  unfold columnAlleles
  rw [length_flat, List.map_map, List.map_map]
  apply congrArg List.sum
  apply List.map_congr_left
  intro r _
  exact length_allelesAt r j

lemma build_column (pools : List (List Nat)) (groups : List Nat) (j : Nat)
    (hj : j < pools.length) :
    ∀ (rs : List Record) (ks : List Nat), ks.length = pools.length →
    (∀ r ∈ rs, r.genos.length = pools.length) →
    columnAlleles (permuteAllelesBuild pools groups rs ks) groups j
      = consumeColumn (pools.getD j []) (ks.getD j 0)
          ((rs.filter (fun r => decide (r.groupId ∈ groups))).map
            (fun r => r.genos.getD j none)) := by
  intro rs
  induction rs with
  | nil => intro ks h1 h2; rfl
  | cons r rs ih =>
    intro ks hks hwf
    have hgl : r.genos.length = pools.length := hwf r (List.mem_cons_self r rs)
    by_cases hsel : r.groupId ∈ groups
    · have hjk : j < ks.length := by omega
      have hjg : j < r.genos.length := by omega
      have hks2 : ((buildGenos pools ks r.genos).2).length = pools.length := by
        rw [buildGenos_snd_length, hks, hgl]
        omega
      simp only [permuteAllelesBuild, if_pos hsel]
      rw [columnAlleles_cons]
      simp only [if_pos hsel]
      rw [ih (buildGenos pools ks r.genos).2 hks2
        (fun x hx => hwf x (List.mem_cons_of_mem _ hx))]
      rw [List.filter_cons_of_pos (by simpa using hsel), List.map_cons]
      show allelesAt ⟨r.groupId, (buildGenos pools ks r.genos).1⟩ j
            ++ consumeColumn (pools.getD j [])
                (((buildGenos pools ks r.genos).2).getD j 0) _
          = consumeColumn (pools.getD j []) (ks.getD j 0)
              ((r.genos.getD j none)
                :: (rs.filter (fun x => decide (x.groupId ∈ groups))).map
                    (fun x => x.genos.getD j none))
      rw [buildGenos_snd_getD pools ks r.genos j hj hjk hjg]
      unfold allelesAt
      show ((buildGenos pools ks r.genos).1.getD j none).getD [] ++ _ = _
      rw [buildGenos_fst_getD pools ks r.genos j hj hjk hjg]
      rfl
    · simp only [permuteAllelesBuild, if_neg hsel]
      rw [columnAlleles_cons]
      simp only [if_neg hsel, List.nil_append]
      rw [ih ks hks (fun x hx => hwf x (List.mem_cons_of_mem _ hx))]
      rw [List.filter_cons_of_neg (by simpa using hsel)]

lemma consumeColumn_take (pool : List Nat) :
    ∀ (gs : List Geno) (k : Nat),
      (∀ g ∈ gs, g.isSome = true → genoLen g = 1 ∨ genoLen g = 2) →
      k + (gs.map genoLen).sum ≤ pool.length →
      consumeColumn pool k gs = (pool.drop k).take ((gs.map genoLen).sum) := by
  intro gs
  induction gs with
  | nil => intro k h1 h2; simp [consumeColumn]
  | cons g gs ih =>
    intro k hall hfit
    have hfit' : k + (genoLen g + ((gs.map genoLen).sum)) ≤ pool.length := by
      simpa using hfit
    cases g with
    | none =>
      show (((none : Geno), k).1.getD []) ++ consumeColumn pool ((none : Geno), k).2 gs
          = (pool.drop k).take (((none :: gs : List Geno).map genoLen).sum)
      rw [ih k (fun x hx hs => hall x (List.mem_cons_of_mem _ hx) hs)
        (by simpa [genoLen] using hfit')]
      simp [genoLen]
    | some l =>
      have hl := hall (some l) (List.mem_cons_self _ _) rfl
      simp only [genoLen] at hl
      have hsum : ((some l :: gs : List Geno).map genoLen).sum
          = l.length + (gs.map genoLen).sum := by
        simp [genoLen]
      rcases hl with h1 | h2
      · have hklt : k < pool.length := by omega
        show ((consumeGeno pool k (some l)).1.getD [])
              ++ consumeColumn pool (consumeGeno pool k (some l)).2 gs
            = (pool.drop k).take (((some l :: gs : List Geno).map genoLen).sum)
        rw [hsum, h1]
        simp only [consumeGeno, if_pos h1]
        rw [ih (k + 1) (fun x hx hs => hall x (List.mem_cons_of_mem _ hx) hs)
          (by omega)]
        rw [drop_getD_cons pool k hklt]
        simp [Nat.add_comm 1 ((gs.map genoLen).sum)]
      · have hklt : k < pool.length := by omega
        have hklt2 : k + 1 < pool.length := by omega
        show ((consumeGeno pool k (some l)).1.getD [])
              ++ consumeColumn pool (consumeGeno pool k (some l)).2 gs
            = (pool.drop k).take (((some l :: gs : List Geno).map genoLen).sum)
        rw [hsum, h2]
        have hne : l.length ≠ 1 := by omega
        simp only [consumeGeno, if_neg hne, if_pos h2]
        rw [ih (k + 2) (fun x hx hs => hall x (List.mem_cons_of_mem _ hx) hs)
          (by omega)]
        rw [drop_getD_cons pool k hklt, drop_getD_cons pool (k + 1) hklt2]
        have h2s : 2 + (gs.map genoLen).sum = ((gs.map genoLen).sum + 1) + 1 := by omega
        rw [h2s]
        simp

lemma getD_mem {α : Type} (l : List α) (i : Nat) (d : α) (h : i < l.length) :
    l.getD i d ∈ l := by
  rw [List.getD_eq_getElem l d h]
  exact List.getElem_mem h

/-- The shuffled per-locus pools of permuteAlleles (lines 209-227). -/
def allelePools (sh : Nat → List Nat → List Nat) (pmgc : Container)
    (groups : List Nat) : List (List Nat) :=
  (List.range pmgc.nbLoci).map (fun j => sh j (columnAlleles pmgc.records groups j))

lemma length_allelePools (sh : Nat → List Nat → List Nat) (pmgc : Container)
    (groups : List Nat) : (allelePools sh pmgc groups).length = pmgc.nbLoci := by
  simp [allelePools]

lemma allelePools_getD (sh : Nat → List Nat → List Nat) (pmgc : Container)
    (groups : List Nat) (j : Nat) (hj : j < pmgc.nbLoci) :
    (allelePools sh pmgc groups).getD j []
      = sh j (columnAlleles pmgc.records groups j) :=
  getD_map_range _ _ _ _ hj

lemma permuteAlleles_records (sh : Nat → List Nat → List Nat) (pmgc : Container)
    (groups : List Nat) :
    (permuteAlleles sh pmgc groups).records
      = permuteAllelesBuild (allelePools sh pmgc groups)
          groups pmgc.records (List.replicate pmgc.nbLoci 0) := by
  simp only [permuteAlleles, copyNames, allelePools]
  rw [records_foldl_preserved
    (fun c gid => Container.setGroupName c gid (pmgc.getGroupName gid))
    (fun c gid => rfl)]

/-- Claim C4: on a collection whose non-missing genotypes hold 1 or 2
alleles, permuteAlleles keeps the record count and visiting order, keeps
every record's group id, preserves each record's per-locus allele count and
missingness, and permutes the per-locus allele multiset over the selected
records, for every family of shuffle outcomes that are permutations. -/
theorem permuteAlleles_preserves_ploidy_and_alleleColumns
    (sh : Nat → List Nat → List Nat) (pmgc : Container) (groups : List Nat)
    (hwf : Container.wf pmgc)
    (hpl : ∀ r ∈ pmgc.records, ∀ g ∈ r.genos,
      g.isSome = true → genoLen g = 1 ∨ genoLen g = 2)
    (hsh : ∀ (j : Nat) (pool : List Nat), (sh j pool).Perm pool) :
    (permuteAlleles sh pmgc groups).records.length = pmgc.records.length ∧
    (∀ i : Nat, ((permuteAlleles sh pmgc groups).records.getD i dRec).groupId
        = (pmgc.records.getD i dRec).groupId) ∧
    (∀ i j : Nat,
      genoLen (((permuteAlleles sh pmgc groups).records.getD i dRec).genos.getD j none)
        = genoLen ((pmgc.records.getD i dRec).genos.getD j none) ∧
      (((permuteAlleles sh pmgc groups).records.getD i dRec).genos.getD j none).isSome
        = ((pmgc.records.getD i dRec).genos.getD j none).isSome) ∧
    (∀ j : Nat, (columnAlleles (permuteAlleles sh pmgc groups).records groups j).Perm
        (columnAlleles pmgc.records groups j)) := by
  have hrec := permuteAlleles_records sh pmgc groups
  have hplen : (allelePools sh pmgc groups).length = pmgc.nbLoci :=
    length_allelePools sh pmgc groups
  have hwf2 : ∀ r ∈ pmgc.records, r.genos.length = (allelePools sh pmgc groups).length := by
    intro r hr
    rw [hplen]
    exact hwf r hr
  have hklen : (List.replicate pmgc.nbLoci 0).length = (allelePools sh pmgc groups).length := by
    simp [hplen]
  have p1 : (permuteAlleles sh pmgc groups).records.length = pmgc.records.length := by
    rw [hrec, permuteAllelesBuild_length]
  have p2 : ∀ i : Nat, ((permuteAlleles sh pmgc groups).records.getD i dRec).groupId
      = (pmgc.records.getD i dRec).groupId := by
    intro i
    rw [hrec]
    exact permuteAllelesBuild_getD_groupId _ groups pmgc.records _ i
  have p3 : ∀ i j : Nat,
      genoLen (((permuteAlleles sh pmgc groups).records.getD i dRec).genos.getD j none)
        = genoLen ((pmgc.records.getD i dRec).genos.getD j none) ∧
      (((permuteAlleles sh pmgc groups).records.getD i dRec).genos.getD j none).isSome
        = ((pmgc.records.getD i dRec).genos.getD j none).isSome := by
    intro i j
    by_cases hi : i < pmgc.records.length
    · have hmemi : pmgc.records.getD i dRec ∈ pmgc.records := getD_mem _ i dRec hi
      have hgl : (pmgc.records.getD i dRec).genos.length = pmgc.nbLoci := hwf _ hmemi
      by_cases hsel : (pmgc.records.getD i dRec).groupId ∈ groups
      · obtain ⟨ks2, hks2, he⟩ := permuteAllelesBuild_getD_sel
          (allelePools sh pmgc groups) groups pmgc.records
          (List.replicate pmgc.nbLoci 0) i hklen hwf2 hi hsel
        rw [hrec, he]
        by_cases hj : j < pmgc.nbLoci
        · have hj1 : j < (allelePools sh pmgc groups).length := by omega
          have hj2 : j < ks2.length := by omega
          have hj3 : j < (pmgc.records.getD i dRec).genos.length := by omega
          show genoLen ((buildGenos (allelePools sh pmgc groups) ks2
              ((pmgc.records.getD i dRec).genos)).1.getD j none) = _ ∧ _
          rw [buildGenos_fst_getD _ ks2 _ j hj1 hj2 hj3]
          rcases hg : (pmgc.records.getD i dRec).genos.getD j none with _ | l
          · exact ⟨rfl, rfl⟩
          · have hmemg : (some l : Geno) ∈ (pmgc.records.getD i dRec).genos := by
              rw [← hg]
              exact getD_mem _ j none hj3
            have hl12 := hpl _ hmemi _ hmemg rfl
            simp only [genoLen] at hl12
            rcases hl12 with h1 | h2
            · simp [consumeGeno, h1, genoLen]
            · have hne : l.length ≠ 1 := by omega
              simp [consumeGeno, hne, h2, genoLen]
        · have hout : ((buildGenos (allelePools sh pmgc groups) ks2
              ((pmgc.records.getD i dRec).genos)).1).length ≤ j := by
            rw [buildGenos_fst_length]
            omega
          show genoLen ((buildGenos (allelePools sh pmgc groups) ks2
              ((pmgc.records.getD i dRec).genos)).1.getD j none) = _ ∧ _
          rw [List.getD_eq_default _ _ hout, List.getD_eq_default _ _ (by omega :
            (pmgc.records.getD i dRec).genos.length ≤ j)]
          exact ⟨rfl, rfl⟩
      · rw [hrec, permuteAllelesBuild_getD_unsel _ groups pmgc.records _ i hsel]
        exact ⟨rfl, rfl⟩
    · have hlen1 : (permuteAlleles sh pmgc groups).records.length ≤ i := by omega
      have hlen2 : pmgc.records.length ≤ i := by omega
      rw [List.getD_eq_default _ _ hlen1, List.getD_eq_default _ _ hlen2]
      exact ⟨rfl, rfl⟩
  have p4 : ∀ j : Nat, (columnAlleles (permuteAlleles sh pmgc groups).records groups j).Perm
      (columnAlleles pmgc.records groups j) := by
    intro j
    by_cases hj : j < pmgc.nbLoci
    · have hj1 : j < (allelePools sh pmgc groups).length := by omega
      rw [hrec, build_column _ groups j hj1 pmgc.records _ hklen hwf2]
      have hk0 : (List.replicate pmgc.nbLoci 0).getD j 0 = 0 := by
        rw [List.getD_eq_getElem _ _ (by simpa using hj)]
        simp
      rw [hk0, allelePools_getD sh pmgc groups j hj]
      have hall : ∀ g ∈ (pmgc.records.filter
          (fun r => decide (r.groupId ∈ groups))).map (fun r => r.genos.getD j none),
          g.isSome = true → genoLen g = 1 ∨ genoLen g = 2 := by
        intro g hg hs
        rcases List.mem_map.1 hg with ⟨r, hr, rfl⟩
        have hrs : r ∈ pmgc.records := (List.mem_filter.1 hr).1
        by_cases hjr : j < r.genos.length
        · exact hpl r hrs _ (getD_mem _ j none hjr) hs
        · rw [List.getD_eq_default _ _ (by omega)] at hs
          simp at hs
      have hsum : (((pmgc.records.filter
          (fun r => decide (r.groupId ∈ groups))).map
            (fun r => r.genos.getD j none)).map genoLen).sum
          = (columnAlleles pmgc.records groups j).length :=
        (length_columnAlleles pmgc.records groups j).symm
      have hlenpool : (sh j (columnAlleles pmgc.records groups j)).length
          = (columnAlleles pmgc.records groups j).length :=
        (hsh j (columnAlleles pmgc.records groups j)).length_eq
      rw [consumeColumn_take _ _ 0 hall (by rw [hsum]; omega)]
      rw [List.drop_zero, hsum, ← hlenpool, List.take_length]
      exact hsh j (columnAlleles pmgc.records groups j)
    · have hincol : columnAlleles pmgc.records groups j = [] :=
        columnAlleles_eq_nil pmgc.records groups j
          (fun r hr => List.getD_eq_default _ _ (by rw [hwf r hr]; omega))
      have houtcol : columnAlleles (permuteAlleles sh pmgc groups).records groups j = [] := by
        apply columnAlleles_eq_nil
        intro r hr
        rcases List.mem_iff_getElem.1 hr with ⟨i, hilt, heq⟩
        have hre : (permuteAlleles sh pmgc groups).records.getD i dRec = r := by
          rw [List.getD_eq_getElem _ _ hilt, heq]
        have hi : i < pmgc.records.length := by omega
        have hmemi : pmgc.records.getD i dRec ∈ pmgc.records := getD_mem _ i dRec hi
        have hinone : ((pmgc.records.getD i dRec).genos.getD j none).isSome = false := by
          rw [List.getD_eq_default _ _ (by rw [hwf _ hmemi]; omega)]
          rfl
        have hs := (p3 i j).2
        rw [hre, hinone] at hs
        cases hopt : r.genos.getD j none with
        | none => rfl
        | some v => rw [hopt] at hs; simp at hs
      rw [hincol, houtcol]
  exact ⟨p1, p2, p3, p4⟩

/-- Collection used as the allele-permutation witness: two diploid loci with
a haploid and a missing slot, two selected records in group 1, one untouched
record in group 3. -/
def exC4 : Container :=
  ⟨[⟨1, [some [5], some [6, 7]]⟩, ⟨1, [some [8], none]⟩, ⟨3, [some [9], some [4]]⟩], [], 2⟩

/-- Witness for claim C4 on exC4 with the identity shuffles. -/
theorem permuteAlleles_preserves_ploidy_and_alleleColumns_witness :
    Container.wf exC4 ∧
    ((permuteAlleles (fun _ l => l) exC4 [1]).records.length = exC4.records.length ∧
      (∀ i : Nat, ((permuteAlleles (fun _ l => l) exC4 [1]).records.getD i dRec).groupId
          = (exC4.records.getD i dRec).groupId) ∧
      (∀ i j : Nat,
        genoLen (((permuteAlleles (fun _ l => l) exC4 [1]).records.getD i dRec).genos.getD j none)
          = genoLen ((exC4.records.getD i dRec).genos.getD j none) ∧
        (((permuteAlleles (fun _ l => l) exC4 [1]).records.getD i dRec).genos.getD j none).isSome
          = ((exC4.records.getD i dRec).genos.getD j none).isSome) ∧
      (∀ j : Nat, (columnAlleles (permuteAlleles (fun _ l => l) exC4 [1]).records [1] j).Perm
          (columnAlleles exC4.records [1] j))) :=
  ⟨by decide,
   permuteAlleles_preserves_ploidy_and_alleleColumns (fun _ l => l) exC4 [1]
     (by decide) (by decide) (fun j pool => List.Perm.refl pool)⟩

/-- Claim C10: when a selected record holds a genotype with more than two
alleles at some locus, permuteAlleles still pools all of that genotype's
alleles (they sit contiguously in the gathered per-locus pool) but rebuilds
that record with the locus left unset, so the output slot is missing and the
input ploidy is not preserved there. -/
theorem permuteAlleles_multiAlleleUnset
    (sh : Nat → List Nat → List Nat) (pmgc : Container) (groups : List Nat)
    (i j : Nat) (l : List Nat)
    (hwf : Container.wf pmgc)
    (hi : i < pmgc.records.length)
    (hsel : (pmgc.records.getD i dRec).groupId ∈ groups)
    (hg : (pmgc.records.getD i dRec).genos.getD j none = some l)
    (hlen : 2 < l.length) :
    (∃ s t : List Nat, columnAlleles pmgc.records groups j = s ++ l ++ t) ∧
    ((permuteAlleles sh pmgc groups).records.getD i dRec).genos.getD j none = none := by
  have hmemi : pmgc.records.getD i dRec ∈ pmgc.records := getD_mem _ i dRec hi
  have hgl : (pmgc.records.getD i dRec).genos.length = pmgc.nbLoci := hwf _ hmemi
  have hj3 : j < (pmgc.records.getD i dRec).genos.length := by
    by_contra hge
    rw [List.getD_eq_default _ _ (by omega)] at hg
    exact Option.noConfusion hg
  have hj : j < pmgc.nbLoci := by omega
  constructor
  · have hmemf : pmgc.records.getD i dRec ∈ pmgc.records.filter
        (fun r => decide (r.groupId ∈ groups)) :=
      List.mem_filter.2 ⟨hmemi, by simpa using hsel⟩
    have hmem2 : allelesAt (pmgc.records.getD i dRec) j ∈ (pmgc.records.filter
        (fun r => decide (r.groupId ∈ groups))).map (fun r => allelesAt r j) :=
      List.mem_map_of_mem _ hmemf
    rcases List.append_of_mem hmem2 with ⟨s2, t2, hsplit⟩
    refine ⟨flat s2, flat t2, ?_⟩
    have hsimp : allelesAt (pmgc.records.getD i dRec) j = l := by
      unfold allelesAt
      rw [hg]
      rfl
    unfold columnAlleles
    rw [hsplit, flat_append]
    show flat s2 ++ (allelesAt (pmgc.records.getD i dRec) j ++ flat t2)
        = flat s2 ++ l ++ flat t2
    rw [hsimp, List.append_assoc]
  · have hrec := permuteAlleles_records sh pmgc groups
    have hplen : (allelePools sh pmgc groups).length = pmgc.nbLoci :=
      length_allelePools sh pmgc groups
    have hwf2 : ∀ r ∈ pmgc.records, r.genos.length = (allelePools sh pmgc groups).length := by
      intro r hr
      rw [hplen]
      exact hwf r hr
    have hklen : (List.replicate pmgc.nbLoci 0).length
        = (allelePools sh pmgc groups).length := by simp [hplen]
    obtain ⟨ks2, hks2, he⟩ := permuteAllelesBuild_getD_sel
      (allelePools sh pmgc groups) groups pmgc.records
      (List.replicate pmgc.nbLoci 0) i hklen hwf2 hi hsel
    rw [hrec, he]
    have hj1 : j < (allelePools sh pmgc groups).length := by omega
    have hj2 : j < ks2.length := by omega
    show (buildGenos (allelePools sh pmgc groups) ks2
        ((pmgc.records.getD i dRec).genos)).1.getD j none = none
    rw [buildGenos_fst_getD _ ks2 _ j hj1 hj2 hj3, hg]
    have hne1 : l.length ≠ 1 := by omega
    have hne2 : l.length ≠ 2 := by omega
    simp [consumeGeno, hne1, hne2]

/-- Collection used as the multi-allele witness: a 3-allele genotype in the
first record followed by a haploid record in the same group. -/
def exC10 : Container :=
  ⟨[⟨1, [some [10, 20, 30]]⟩, ⟨1, [some [1]]⟩], [], 1⟩

/-- Witness for claim C10 on exC10 with the identity shuffle. -/
theorem permuteAlleles_multiAlleleUnset_witness :
    Container.wf exC10 ∧
    ((∃ s t : List Nat, columnAlleles exC10.records [1] 0 = s ++ [10, 20, 30] ++ t) ∧
      ((permuteAlleles (fun _ l => l) exC10 [1]).records.getD 0 dRec).genos.getD 0 none
        = none) :=
  ⟨by decide,
   permuteAlleles_multiAlleleUnset (fun _ l => l) exC10 [1] 0 0 [10, 20, 30]
     (by decide) (by decide) (by decide) (by decide) (by decide)⟩

/-! ### Theorems for the DataSet claims -/

/-- Claim C6: for a group id that belongs to no group of the DataSet,
getGroupName does not raise the declared GroupNotFoundException: it
dereferences the NULL pointer returned by getGroupById (undefined behavior);
the throw on DataSet.cpp line 210 is unreachable.  Evaluated here on a
DataSet with no groups and the unknown id 5. -/
theorem getGroupName_unknownId_nullDeref :
    DataSet.getGroupName ⟨none, none, [], []⟩ 5 = Except.error DsError.nullDeref ∧
    DataSet.getGroupName ⟨none, none, [], []⟩ 5 ≠ Except.error DsError.groupNotFound := by
  constructor
  · rfl
  · decide

/-- Claim C7: for an existing group, getGroupName returns the stored name
when it is non-empty, and the decimal string of the group id when the stored
name is empty (DataSet.cpp lines 204-211). -/
theorem getGroupName_existingGroup (ds : DataSet) (gid : Nat) (g : GroupD)
    (h : ds.getGroupById gid = some g) :
    ds.getGroupName gid =
      Except.ok (if g.groupName = "" then toString gid else g.groupName) := by
  unfold DataSet.getGroupName
  rw [h]
  by_cases hn : g.groupName = "" <;> simp [hn]

/-- Witness for claim C7 at a concrete DataSet, in both the empty-name and
the named case. -/
theorem getGroupName_existingGroup_witness :
    DataSet.getGroupById ⟨none, none, [], [⟨7, ""⟩, ⟨8, "pop8"⟩]⟩ 7 = some ⟨7, ""⟩ ∧
    DataSet.getGroupName ⟨none, none, [], [⟨7, ""⟩, ⟨8, "pop8"⟩]⟩ 7 = Except.ok "7" ∧
    DataSet.getGroupName ⟨none, none, [], [⟨7, ""⟩, ⟨8, "pop8"⟩]⟩ 8 = Except.ok "pop8" := by
  refine ⟨by decide, ?_, ?_⟩
  · exact (getGroupName_existingGroup ⟨none, none, [], [⟨7, ""⟩, ⟨8, "pop8"⟩]⟩ 7 ⟨7, ""⟩
      (by decide)).trans (by decide)
  · exact (getGroupName_existingGroup ⟨none, none, [], [⟨7, ""⟩, ⟨8, "pop8"⟩]⟩ 8 ⟨8, "pop8"⟩
      (by decide)).trans (by decide)

/-- Claim C9: copy-assignment of a DataSet does not replace the target's
contents: the resulting group list is the target's previous groups followed
by the source's groups (and likewise for localities), so for a non-empty
target, assignment differs from copy construction from the source. -/
theorem dataSet_assign_appends (d s : DataSet) (h : d.groups ≠ []) :
    (DataSet.assign d s).groups = d.groups ++ s.groups ∧
    (DataSet.assign d s).groups.length = d.groups.length + s.groups.length ∧
    (DataSet.assign d s).localities = d.localities ++ s.localities ∧
    (DataSet.assign d s).localities.length = d.localities.length + s.localities.length ∧
    (DataSet.assign d s).groups ≠ (DataSet.copyCtor s).groups := by
  refine ⟨rfl, by simp [DataSet.assign], rfl, by simp [DataSet.assign], ?_⟩
  intro heq
  have hlen : d.groups.length + s.groups.length = s.groups.length := by
    have := congrArg List.length heq
    simpa [DataSet.assign, DataSet.copyCtor] using this
  have : d.groups.length = 0 := by omega
  exact h (List.eq_nil_of_length_eq_zero this)

/-- Witness for claim C9 at a concrete non-empty target DataSet. -/
theorem dataSet_assign_appends_witness :
    (⟨none, none, ["locA"], [⟨1, "g1"⟩]⟩ : DataSet).groups ≠ [] ∧
    ((DataSet.assign ⟨none, none, ["locA"], [⟨1, "g1"⟩]⟩ ⟨none, none, ["locB"], [⟨2, "g2"⟩]⟩).groups
        = [⟨1, "g1"⟩] ++ [⟨2, "g2"⟩] ∧
      (DataSet.assign ⟨none, none, ["locA"], [⟨1, "g1"⟩]⟩ ⟨none, none, ["locB"], [⟨2, "g2"⟩]⟩).groups.length
        = 1 + 1 ∧
      (DataSet.assign ⟨none, none, ["locA"], [⟨1, "g1"⟩]⟩ ⟨none, none, ["locB"], [⟨2, "g2"⟩]⟩).localities
        = ["locA"] ++ ["locB"] ∧
      (DataSet.assign ⟨none, none, ["locA"], [⟨1, "g1"⟩]⟩ ⟨none, none, ["locB"], [⟨2, "g2"⟩]⟩).localities.length
        = 1 + 1 ∧
      (DataSet.assign ⟨none, none, ["locA"], [⟨1, "g1"⟩]⟩ ⟨none, none, ["locB"], [⟨2, "g2"⟩]⟩).groups
        ≠ (DataSet.copyCtor ⟨none, none, ["locB"], [⟨2, "g2"⟩]⟩).groups) :=
  ⟨by decide,
   dataSet_assign_appends ⟨none, none, ["locA"], [⟨1, "g1"⟩]⟩ ⟨none, none, ["locB"], [⟨2, "g2"⟩]⟩
     (by decide)⟩

/-- Claim C8: watterson75 returns S / a1 with a1 the harmonic sum over the
sample size minus one; on the synthetic 4-sequence, 5-site, gap-free
alignment with exactly two segregating sites it returns 2 / (1 + 1/2 + 1/3). -/
theorem watterson75_formula :
    (∀ (psc : Psc) (gapflag : Bool),
      watterson75 psc gapflag = (polymorphicSiteNumber psc gapflag : ℚ) / a1 psc.nbSeq) ∧
    Psc.nbSeq exAln = 4 ∧
    polymorphicSiteNumber exAln true = 2 ∧
    exAln.seqs.all (fun s => s.all (fun x => x.isSome)) = true ∧
    a1 4 = 1 + 1 / 2 + 1 / 3 ∧
    watterson75 exAln true = 2 / (1 + 1 / 2 + 1 / 3) := by
  have ha : a1 4 = 1 + 1 / 2 + 1 / 3 := by
    show (Finset.range 3).sum (fun i => 1 / ((i : ℚ) + 1)) = 1 + 1 / 2 + 1 / 3
    rw [Finset.sum_range_succ, Finset.sum_range_succ, Finset.sum_range_succ,
      Finset.sum_range_zero]
    norm_num
  have hS : polymorphicSiteNumber exAln true = 2 := by decide
  refine ⟨fun psc gapflag => rfl, rfl, hS, by decide, ha, ?_⟩
  unfold watterson75
  rw [hS]
  have : Psc.nbSeq exAln = 4 := rfl
  rw [this, ha]
  norm_num

end Bpp
